import Mathlib

/-!
Verification development for the oncall-agent alert-normalization and
deduplication core.

The TypeScript source is shallowly embedded in Lean:

* JavaScript runtime values appearing in webhook payloads are modelled by the
  inductive type `JVal` (JSON numbers restricted to integers, which covers
  every payload shape the repository handles); a missing property
  (JS `undefined`) is modelled by `Option.none` at each access site, while
  JS `null` is the explicit value `JVal.jnull`.
* JavaScript exceptions (`throw`, `TypeError`, `RangeError`) are modelled by
  `Except String`.
* The JavaScript standard-library built-ins with environment-dependent or
  out-of-scope behaviour (`Date.now`, `new Date(...)`, `toISOString`,
  `JSON.parse`) are modelled as fields of an explicit environment `JsEnv`
  threaded through the code, exactly where the source calls them.
* JavaScript `number` arithmetic on similarity scores is modelled with exact
  rationals `ℚ`; the weight constants 0.5 / 0.3 / 0.2 of the source are the
  rationals 1/2, 3/10, 1/5.
* JS `Set` semantics (insertion-order-irrelevant membership, used by the
  Jaccard similarity) are modelled with `Finset String`.
-/

namespace OncallAgent

/-! ## Text similarity engine (src/dedup.ts, `jaccardSimilarity`)

The source:

```
const normalize = (s: string) =>
  s.toLowerCase()
    .replace(/[^\w\s]/g, ' ')
    .split(/\s+/)
    .filter(w => w.length > 2)
```

`\w` is ASCII `[A-Za-z0-9_]`; splitting on `/\s+/` can only introduce empty
pieces, which the `length > 2` filter discards, so splitting at every
whitespace character and filtering is equivalent. -/

/-- Split a character list at every whitespace character (the pieces between
consecutive separators are empty, exactly as `"a  b".split(/\s/)` would
produce; under the later `length > 2` filter this coincides with splitting
on `/\s+/`). Structural recursion keeps the definition kernel-evaluable. -/
def splitOnWs : List Char → List (List Char)
  | [] => [[]]
  | c :: rest =>
    if c.isWhitespace then [] :: splitOnWs rest
    else
      match splitOnWs rest with
      | [] => [[c]]
      | t :: ts => (c :: t) :: ts

/-- Tokenizer of `jaccardSimilarity`: lower-case, strip punctuation
(`[^\w\s]`, i.e. anything that is not alphanumeric, underscore or
whitespace) to spaces, split on whitespace, drop tokens of length ≤ 2. -/
def normalize (s : String) : List String :=
  ((splitOnWs ((s.data.map Char.toLower).map fun c =>
      if c.isAlphanum || c == '_' || c.isWhitespace then c else ' ')).map
        fun cs => String.mk cs).filter fun w => w.length > 2

/-- Jaccard similarity between two strings, word-level, from `src/dedup.ts`:
the two token sets `setA`/`setB` are JS `Set`s (modelled as `Finset String`);
if either set is empty the score is `0`, otherwise `|A ∩ B| / |A ∪ B|`. -/
def jaccardSimilarity (a b : String) : ℚ :=
  if (normalize a).toFinset.card = 0 ∨ (normalize b).toFinset.card = 0 then 0
  else (((normalize a).toFinset ∩ (normalize b).toFinset).card : ℚ) /
    (((normalize a).toFinset ∪ (normalize b).toFinset).card : ℚ)

/-- C4: `jaccardSimilarity` is symmetric in its two arguments. -/
theorem jaccardSimilarity_comm (a b : String) :
    jaccardSimilarity a b = jaccardSimilarity b a := by
  by_cases hA : (normalize a).toFinset.card = 0 <;>
    by_cases hB : (normalize b).toFinset.card = 0 <;>
      simp [jaccardSimilarity, hA, hB, Finset.inter_comm, Finset.union_comm]

/-- C5: the score is `0` (an actual rational zero, never undefined) whenever
the two normalized token sets share no element or either set is empty. -/
theorem jaccardSimilarity_eq_zero (a b : String)
    (h : (normalize a).toFinset ∩ (normalize b).toFinset = ∅ ∨
         (normalize a).toFinset = ∅ ∨ (normalize b).toFinset = ∅) :
    jaccardSimilarity a b = 0 := by
  rcases h with h | h | h
  · unfold jaccardSimilarity
    split
    · rfl
    · simp [h]
  · simp [jaccardSimilarity, h]
  · simp [jaccardSimilarity, h]

/-- Witness for C5 at a concrete disjoint pair. -/
theorem jaccardSimilarity_eq_zero_witness :
    jaccardSimilarity "alpha beta" "gamma delta" = 0 :=
  jaccardSimilarity_eq_zero "alpha beta" "gamma delta" (Or.inl (by decide))

/-- C6: self-similarity is `1` whenever normalization of the string yields at
least one token longer than 2 characters. -/
theorem jaccardSimilarity_self (a : String)
    (h : ∃ t ∈ normalize a, 2 < t.length) :
    jaccardSimilarity a a = 1 := by
  obtain ⟨t, ht, -⟩ := h
  have hmem : t ∈ (normalize a).toFinset := List.mem_toFinset.mpr ht
  have hcard : (normalize a).toFinset.card ≠ 0 := by
    intro h0
    rw [Finset.card_eq_zero] at h0
    rw [h0] at hmem
    exact absurd hmem (Finset.not_mem_empty t)
  unfold jaccardSimilarity
  rw [if_neg (by simp [hcard]), Finset.inter_self, Finset.union_self]
  exact div_self (by exact_mod_cast hcard)

/-- Witness for C6 at a concrete string. -/
theorem jaccardSimilarity_self_witness :
    jaccardSimilarity "hello world" "hello world" = 1 :=
  jaccardSimilarity_self "hello world" ⟨"hello", by decide, by decide⟩

/-! ## JavaScript value model -/

/-- A JavaScript/JSON runtime value as it appears in webhook payloads.
JSON numbers are restricted to integers (every number the repository's code
paths inspect is an id, a count or a unix timestamp). A *missing* property
(JS `undefined`) is represented by `Option.none` at each access site; `null`
is the explicit value `jnull`. Objects are association lists with unique
keys, arrays are lists. -/
inductive JVal where
  | jnull : JVal
  | jbool : Bool → JVal
  | jnum : Int → JVal
  | jstr : String → JVal
  | jarr : List JVal → JVal
  | jobj : List (String × JVal) → JVal

/-- Environment of JavaScript built-ins the source calls: the clock
(`Date.now()` / `new Date().toISOString()`), date parsing and formatting,
the dedup lookback-window computation, and `JSON.parse`. They are modelled
as opaque-to-the-core functions supplied by the runtime, exactly as the
source treats them. -/
structure JsEnv where
  /-- `Date.now()`, milliseconds since epoch. -/
  nowMs : Int
  /-- `new Date().toISOString()`. -/
  nowIso : String
  /-- `new Date(s).getTime()` for a string argument; `none` models `NaN`
  (an invalid date). -/
  parseDate : String → Option Int
  /-- `new Date(ms).toISOString()`; `none` models the `RangeError` thrown
  for out-of-range time values. -/
  msToIso : Int → Option String
  /-- The dedup candidate window: `new Date()` with `setHours(getHours() - h)`
  applied, then `toISOString()`. -/
  hoursAgoIso : Int → String
  /-- `JSON.parse`; `none` models a thrown `SyntaxError`. -/
  jsonParse : String → Option JVal

/-! ## Canonical data model (src/types.ts) -/

/-- Severity levels for alerts (`src/types.ts`). -/
inductive Severity where
  | critical : Severity
  | warning : Severity
  | info : Severity
deriving DecidableEq

/-- The canonical `Alert` interface of `src/types.ts`: required string
fields, optional (`?:`) fields as `Option`, `tags` as an association list
with unique keys. -/
structure Alert where
  source : String
  id : String
  title : String
  description : String
  severity : Severity
  stackTrace : Option String
  service : Option String
  timestamp : String
  url : Option String
  tags : Option (List (String × String))
  raw : JVal

/-- One tracking record returned by the record-listing capability
(`listRecentIssues`), as consumed by the duplicate detector:
`{ number, title, body: string | null }`. -/
structure Issue where
  number : Int
  title : String
  body : Option String
deriving DecidableEq

/-- Output of the duplicate detector (`src/dedup.ts`). -/
structure DuplicateMatch where
  number : Int
  title : String
  similarity : ℚ
deriving DecidableEq

/-- Deduplication settings of `Config` (`src/types.ts`), all optional. -/
structure DedupSettings where
  enabled : Option Bool
  similarityThreshold : Option ℚ
  lookbackHours : Option Int
deriving DecidableEq

/-- Repository configuration (`src/types.ts`); only `deduplication` is read
by the core under verification, `autoMerge.enabled` is the literal `false`. -/
structure Config where
  services : Option (List String)
  protectedPaths : Option (List String)
  context : Option String
  runbooks : Option (List (String × String))
  deduplication : Option DedupSettings
  autoMerge : Option Unit
deriving DecidableEq

/-! ## Composite similarity (src/dedup.ts, `calculateSimilarity`) -/

/-- JS truthiness of a `string | null | undefined` value: `undefined`,
`null` and the empty string are falsy. -/
def optTruthy : Option String → Bool
  | none => false
  | some s => !(s == "")

/-- The backtick character, written via its code point. -/
def backtickChar : Char := Char.ofNat 96

/-- Index of the first occurrence of three consecutive backticks. -/
def firstTicks : List Char → Option Nat
  | [] => none
  | c :: rest =>
    if [backtickChar, backtickChar, backtickChar].isPrefixOf (c :: rest) then some 0
    else (firstTicks rest).map (· + 1)

/-- `body.match(/```[\s\S]*?```/)`: the first, non-greedy fenced code block
(from the first triple backtick through the next one), or `none`. -/
def fencedBlockMatch (s : String) : Option String :=
  match firstTicks s.data with
  | none => none
  | some i =>
    match firstTicks (s.data.drop (i + 3)) with
    | none => none
    | some j => some (String.mk ((s.data.drop i).take (j + 6)))

/-- `m.replace(/```/g, '')`: remove every (left-to-right, non-overlapping)
triple backtick. -/
def stripTicks : List Char → List Char
  | c1 :: c2 :: c3 :: rest =>
    if c1 = backtickChar ∧ c2 = backtickChar ∧ c3 = backtickChar then stripTicks rest
    else c1 :: stripTicks (c2 :: c3 :: rest)
  | cs => cs

/-- JS `String.prototype.trim`. -/
def jsTrim (s : String) : String :=
  String.mk (((s.data.dropWhile Char.isWhitespace).reverse.dropWhile
    Char.isWhitespace).reverse)

/-- The `titleSimilarity` component of `calculateSimilarity`. -/
def titleSimilarityOf (alert : Alert) (issue : Issue) : ℚ :=
  jaccardSimilarity alert.title issue.title

/-- The `bodySimilarity` component: `0` unless `issue.body` is truthy. -/
def bodySimilarityOf (alert : Alert) (issue : Issue) : ℚ :=
  if optTruthy issue.body then jaccardSimilarity alert.description (issue.body.getD "")
  else 0

/-- The `stackSimilarity` component: compares the alert's stack trace with
the first fenced code block of the candidate body (backticks stripped,
trimmed), `0` when the alert has no truthy stack trace, the body is not
truthy, or the body has no fenced block. -/
def stackSimilarityOf (alert : Alert) (issue : Issue) : ℚ :=
  if optTruthy alert.stackTrace && optTruthy issue.body then
    match fencedBlockMatch (issue.body.getD "") with
    | some m =>
      jaccardSimilarity (alert.stackTrace.getD "") (jsTrim (String.mk (stripTicks m.data)))
    | none => 0
  else 0

/-- `calculateSimilarity` from `src/dedup.ts`: the weighted combination
`titleSimilarity * 0.5 + stackSimilarity * wStack + bodySimilarity * wBody`
where `wStack = alert.stackTrace ? 0.3 : 0` and
`wBody = alert.stackTrace ? 0.2 : 0.5` (JS truthiness). -/
def calculateSimilarity (alert : Alert) (issue : Issue) : ℚ :=
  titleSimilarityOf alert issue * (1 / 2) +
    stackSimilarityOf alert issue * (if optTruthy alert.stackTrace then 3 / 10 else 0) +
    bodySimilarityOf alert issue * (if optTruthy alert.stackTrace then 1 / 5 else 1 / 2)

/-- C2: with a (truthy) stack trace on the alert and a fenced code block in
the candidate body, the composite similarity is exactly
`0.5·title + 0.3·stack + 0.2·body`; with no stack trace it is exactly
`0.5·title + 0.5·body`; and the weights applied to the components sum
to `1` in every case. -/
theorem calculateSimilarity_weights (alert : Alert) (issue : Issue) :
    ((optTruthy alert.stackTrace = true ∧ optTruthy issue.body = true ∧
        (fencedBlockMatch (issue.body.getD "")).isSome = true) →
      calculateSimilarity alert issue =
        (1 / 2) * titleSimilarityOf alert issue +
          (3 / 10) * stackSimilarityOf alert issue +
          (1 / 5) * bodySimilarityOf alert issue) ∧
    (optTruthy alert.stackTrace = false →
      calculateSimilarity alert issue =
        (1 / 2) * titleSimilarityOf alert issue +
          (1 / 2) * bodySimilarityOf alert issue) ∧
    (1 / 2 : ℚ) + (if optTruthy alert.stackTrace then (3 : ℚ) / 10 else 0) +
        (if optTruthy alert.stackTrace then (1 : ℚ) / 5 else 1 / 2) = 1 := by
  refine ⟨fun h => ?_, fun h => ?_, ?_⟩
  · rw [calculateSimilarity, if_pos h.1, if_pos h.1]
    ring
  · rw [calculateSimilarity, if_neg (by simp [h]), if_neg (by simp [h])]
    have hs : stackSimilarityOf alert issue = 0 := by
      rw [stackSimilarityOf, if_neg (by simp [h])]
    rw [hs]
    ring
  · by_cases h : optTruthy alert.stackTrace = true
    · rw [if_pos h, if_pos h]
      norm_num
    · rw [if_neg h, if_neg h]
      norm_num

/-- Witness for C2: a concrete alert carrying a stack trace against a
candidate whose body holds the same trace in a fenced block. -/
theorem calculateSimilarity_weights_witness :
    calculateSimilarity
        ⟨"generic", "1", "database timeout", "connection timed out",
          Severity.critical, some "at Pool.query (pool.js:42)", none,
          "2024-01-01T00:00:00.000Z", none, none, JVal.jnull⟩
        ⟨7, "database timeout", some "trace: ```at Pool.query (pool.js:42)```"⟩ =
      (1 / 2) * titleSimilarityOf
          ⟨"generic", "1", "database timeout", "connection timed out",
            Severity.critical, some "at Pool.query (pool.js:42)", none,
            "2024-01-01T00:00:00.000Z", none, none, JVal.jnull⟩
          ⟨7, "database timeout", some "trace: ```at Pool.query (pool.js:42)```"⟩ +
        (3 / 10) * stackSimilarityOf
          ⟨"generic", "1", "database timeout", "connection timed out",
            Severity.critical, some "at Pool.query (pool.js:42)", none,
            "2024-01-01T00:00:00.000Z", none, none, JVal.jnull⟩
          ⟨7, "database timeout", some "trace: ```at Pool.query (pool.js:42)```"⟩ +
        (1 / 5) * bodySimilarityOf
          ⟨"generic", "1", "database timeout", "connection timed out",
            Severity.critical, some "at Pool.query (pool.js:42)", none,
            "2024-01-01T00:00:00.000Z", none, none, JVal.jnull⟩
          ⟨7, "database timeout", some "trace: ```at Pool.query (pool.js:42)```"⟩ :=
  (calculateSimilarity_weights _ _).1 ⟨by decide, by decide, by decide⟩

/-! ## Duplicate detector (src/dedup.ts, `findDuplicates`)

The record-listing capability (`listRecentIssues` of `src/clients/github.ts`,
a network call) is the detector's one external dependency; it is modelled as
an injected function from the query options the source passes to the list of
records returned, so `findDuplicates` itself is pure. -/

/-- The options object `findDuplicates` passes to `listRecentIssues`. -/
structure IssueQuery where
  labels : List String
  state : String
  since : Option String
  perPage : Int
deriving DecidableEq

/-- `config.deduplication || {}`. -/
def dedupSettings (config : Config) : DedupSettings :=
  config.deduplication.getD ⟨none, none, none⟩

/-- `dedupConfig.enabled !== false` (default to enabled). -/
def dedupEnabled (config : Config) : Bool :=
  !((dedupSettings config).enabled == some false)

/-- `dedupConfig.similarityThreshold ?? 0.7`. -/
def dedupThreshold (config : Config) : ℚ :=
  (dedupSettings config).similarityThreshold.getD (7 / 10)

/-- `dedupConfig.lookbackHours ?? 24`. -/
def dedupLookbackHours (config : Config) : Int :=
  (dedupSettings config).lookbackHours.getD 24

/-- `findDuplicates` from `src/dedup.ts`: short-circuit to `[]` when
deduplication is disabled; otherwise fetch open `oncall-agent`-labelled
records since the lookback horizon (page size 50), keep those whose
composite similarity reaches the threshold, and sort by similarity, highest
first (`matches.sort((a, b) => b.similarity - a.similarity)`, modelled as a
stable merge sort by descending similarity). -/
def findDuplicates (env : JsEnv) (listRecentIssues : IssueQuery → List Issue)
    (alert : Alert) (config : Config) : List DuplicateMatch :=
  if !dedupEnabled config then []
  else
    let since := env.hoursAgoIso (dedupLookbackHours config)
    let recentIssues := listRecentIssues ⟨["oncall-agent"], "open", some since, 50⟩
    let matchList := recentIssues.filterMap fun issue =>
      if dedupThreshold config ≤ calculateSimilarity alert issue then
        some ⟨issue.number, issue.title, calculateSimilarity alert issue⟩
      else none
    matchList.mergeSort fun x y => decide (y.similarity ≤ x.similarity)

/-- C3: `findDuplicates` returns `[]` unconditionally when deduplication is
disabled; otherwise its result contains a match exactly for the fetched
records whose composite similarity reaches the threshold (which defaults to
`0.7` when unset), and is sorted in descending order of similarity. -/
theorem findDuplicates_spec (env : JsEnv) (ls : IssueQuery → List Issue)
    (alert : Alert) (config : Config) :
    (dedupEnabled config = false → findDuplicates env ls alert config = []) ∧
    (dedupEnabled config = true →
      (∀ m : DuplicateMatch,
        m ∈ findDuplicates env ls alert config ↔
          ∃ issue ∈ ls ⟨["oncall-agent"], "open",
              some (env.hoursAgoIso (dedupLookbackHours config)), 50⟩,
            dedupThreshold config ≤ calculateSimilarity alert issue ∧
            m = ⟨issue.number, issue.title, calculateSimilarity alert issue⟩) ∧
      (findDuplicates env ls alert config).Sorted fun x y =>
        y.similarity ≤ x.similarity) ∧
    ((dedupSettings config).similarityThreshold = none →
      dedupThreshold config = 7 / 10) := by
  refine ⟨fun h => by simp [findDuplicates, h], fun h => ⟨fun m => ?_, ?_⟩,
    fun h => by simp [dedupThreshold, h]⟩
  · rw [findDuplicates, if_neg (by simp [h]), List.mem_mergeSort,
      List.mem_filterMap]
    constructor
    · rintro ⟨issue, hmem, hf⟩
      by_cases hth : dedupThreshold config ≤ calculateSimilarity alert issue
      · rw [if_pos hth] at hf
        exact ⟨issue, hmem, hth, (Option.some_inj.mp hf).symm⟩
      · rw [if_neg hth] at hf
        exact absurd hf (by simp)
    · rintro ⟨issue, hmem, hth, rfl⟩
      exact ⟨issue, hmem, by rw [if_pos hth]⟩
  · rw [findDuplicates, if_neg (by simp [h])]
    have hs := @List.sorted_mergeSort DuplicateMatch
      (fun x y => decide (y.similarity ≤ x.similarity))
      (fun a b c hab hbc => by
        simp only [decide_eq_true_eq] at *
        exact le_trans hbc hab)
      (fun a b => by
        simp only [Bool.or_eq_true, decide_eq_true_eq]
        exact le_total b.similarity a.similarity)
      ((ls ⟨["oncall-agent"], "open",
          some (env.hoursAgoIso (dedupLookbackHours config)), 50⟩).filterMap
        fun issue =>
          if dedupThreshold config ≤ calculateSimilarity alert issue then
            some ⟨issue.number, issue.title, calculateSimilarity alert issue⟩
          else none)
    exact hs.imp fun hxy => by simpa using hxy

/-- Witness for C3: with deduplication explicitly disabled the detector
returns no matches, and in the default configuration a single identical
candidate is reported as the one match. -/
theorem findDuplicates_spec_witness :
    findDuplicates
        ⟨0, "1970-01-01T00:00:00.000Z", fun _ => none, fun _ => none,
          fun _ => "1970-01-01T00:00:00.000Z", fun _ => none⟩
        (fun _ => [⟨5, "database timeout", none⟩])
        ⟨"generic", "1", "database timeout", "database timeout",
          Severity.warning, none, none, "t", none, none, JVal.jnull⟩
        ⟨none, none, none, none,
          some ⟨some false, none, none⟩, none⟩ = [] :=
  (findDuplicates_spec _ _ _ _).1 (by decide)

/-! ## JavaScript evaluation helpers for the parser layer

The parsers probe `unknown` payloads with `in` / `typeof` guards and
unchecked property accesses. These helpers give each JS primitive its
runtime meaning: a property read on `undefined`/`null` throws a
`TypeError` (modelled as `Except.error`), `?.` short-circuits, `||` picks
the first truthy operand, `String(...)` and `Number(...)` coerce. -/

/-- Property lookup on a value: `some` when the key is present on an
object, `none` (JS `undefined`) otherwise (primitives and arrays have no
string-keyed own properties the source reads). -/
def getField : JVal → String → Option JVal
  | .jobj fields, k => (fields.find? fun f => f.1 == k).map (·.2)
  | _, _ => none

/-- The `in` operator's own-property test on an object or array operand. -/
def hasKey : JVal → String → Bool
  | .jobj fields, k => fields.any fun f => f.1 == k
  | .jarr xs, k =>
    k == "length" || (match k.toNat? with | some i => i < xs.length | none => false)
  | _, _ => false

/-- `typeof v === 'object'` (true for `null`, arrays and objects). -/
def isObjType : JVal → Bool
  | .jnull => true
  | .jarr _ => true
  | .jobj _ => true
  | _ => false

/-- `typeof v === 'object' && v !== null` (an array or plain object). -/
def isObjNonNull : JVal → Bool
  | .jarr _ => true
  | .jobj _ => true
  | _ => false

/-- JS truthiness of a value. -/
def truthy : JVal → Bool
  | .jnull => false
  | .jbool b => b
  | .jnum n => !(n == 0)
  | .jstr s => !(s == "")
  | _ => true

/-- JS truthiness of a possibly-`undefined` value. -/
def truthyO : Option JVal → Bool
  | none => false
  | some v => truthy v

/-- `a || b`: the first truthy operand (else the second operand as-is). -/
def jsOr (a b : Option JVal) : Option JVal :=
  if truthyO a then a else b

/-- `o.k`: property read that throws a `TypeError` when the receiver is
`undefined` or `null`. -/
def jsGet (o : Option JVal) (k : String) : Except String (Option JVal) :=
  match o with
  | none => .error ("TypeError: Cannot read properties of undefined (reading " ++ k ++ ")")
  | some .jnull => .error ("TypeError: Cannot read properties of null (reading " ++ k ++ ")")
  | some v => .ok (getField v k)

/-- `o?.k`: optional chaining, short-circuiting to `undefined`. -/
def jsGetOpt (o : Option JVal) (k : String) : Option JVal :=
  match o with
  | none => none
  | some .jnull => none
  | some v => getField v k

/-- `'k' in v`: throws a `TypeError` unless the operand is an object. -/
def jsIn (v : JVal) (k : String) : Except String Bool :=
  match v with
  | .jobj _ => .ok (hasKey v k)
  | .jarr _ => .ok (hasKey v k)
  | _ => .error "TypeError: Cannot use 'in' operator on a non-object"

/-- `v === 'lit'` for a string literal comparand. -/
def isStrV (v : Option JVal) (s : String) : Bool :=
  match v with
  | some (.jstr t) => t == s
  | _ => false

mutual

/-- JS strict equality `===` between two runtime values (structural on our
value model; every comparison the source performs is against primitives). -/
def JVal.beq : JVal → JVal → Bool
  | .jnull, .jnull => true
  | .jbool a, .jbool b => a == b
  | .jnum a, .jnum b => a == b
  | .jstr a, .jstr b => a == b
  | .jarr xs, .jarr ys => JVal.beqList xs ys
  | .jobj xs, .jobj ys => JVal.beqFields xs ys
  | _, _ => false

/-- Elementwise `JVal.beq` on arrays. -/
def JVal.beqList : List JVal → List JVal → Bool
  | [], [] => true
  | x :: xs, y :: ys => JVal.beq x y && JVal.beqList xs ys
  | _, _ => false

/-- Fieldwise `JVal.beq` on objects. -/
def JVal.beqFields : List (String × JVal) → List (String × JVal) → Bool
  | [], [] => true
  | (k1, v1) :: xs, (k2, v2) :: ys => k1 == k2 && JVal.beq v1 v2 && JVal.beqFields xs ys
  | _, _ => false

end

/-- Strict equality on possibly-`undefined` values (`undefined === undefined`). -/
def beqOV : Option JVal → Option JVal → Bool
  | none, none => true
  | some a, some b => JVal.beq a b
  | _, _ => false

mutual

/-- `String(v)` coercion (integers rendered in decimal, arrays joined by
commas with `null` holes rendered empty, objects as `[object Object]`). -/
def jsString : JVal → String
  | .jnull => "null"
  | .jbool true => "true"
  | .jbool false => "false"
  | .jnum n => toString n
  | .jstr s => s
  | .jobj _ => "[object Object]"
  | .jarr xs => String.intercalate "," (jsStringElems xs)

/-- Array elements under `String(...)`: `null` holes render empty. -/
def jsStringElems : List JVal → List String
  | [] => []
  | .jnull :: rest => "" :: jsStringElems rest
  | v :: rest => jsString v :: jsStringElems rest

end

/-- `String(v)` where `v` may be `undefined`. -/
def jsStringU : Option JVal → String
  | none => "undefined"
  | some v => jsString v

/-- Decimal digit run to a natural number (`none` when empty or non-digit). -/
def digitsToNat (ds : List Char) : Option Nat :=
  if ds ≠ [] ∧ ds.all Char.isDigit then
    some (ds.foldl (fun a c => a * 10 + (c.toNat - 48)) 0)
  else none

/-- `Number(string)` restricted to the integer numerals the payloads carry:
whitespace-trimmed, empty means `0`, optionally signed digits; anything
else is `NaN` (`none`). -/
def jsParseIntStr (s : String) : Option Int :=
  match (s.data.dropWhile Char.isWhitespace).reverse.dropWhile Char.isWhitespace |>.reverse with
  | [] => some 0
  | '-' :: ds => (digitsToNat ds).map fun n => -(n : Int)
  | '+' :: ds => (digitsToNat ds).map fun n => (n : Int)
  | ds => (digitsToNat ds).map fun n => (n : Int)

/-- `Number(v)` / arithmetic coercion; `none` is `NaN`. -/
def jsToNumber : JVal → Option Int
  | .jnull => some 0
  | .jbool b => some (if b then 1 else 0)
  | .jnum n => some n
  | .jstr s => jsParseIntStr s
  | .jarr [] => some 0
  | .jarr [x] => jsToNumber x
  | _ => none

/-- `new Date(v).getTime()` for the argument shapes the source passes. -/
def jsNewDateMs (env : JsEnv) : JVal → Option Int
  | .jnum n => some n
  | .jstr s => env.parseDate s
  | .jbool b => some (if b then 1 else 0)
  | _ => none

/-- `for (const x of v)` / spread: arrays iterate elements, strings iterate
characters, everything else throws a `TypeError`. -/
def jsIter : JVal → Except String (List JVal)
  | .jarr xs => .ok xs
  | .jstr s => .ok (s.data.map fun c => .jstr (String.mk [c]))
  | _ => .error "TypeError: value is not iterable"

/-- `Object.entries(v)` for a truthiness-guarded operand: object fields,
array/string index-value pairs, `[]` for other primitives. -/
def jsEntries : JVal → List (String × JVal)
  | .jobj fields => fields
  | .jarr xs => xs.enum.map fun p => (toString p.1, p.2)
  | .jstr s => s.data.enum.map fun p => (toString p.1, .jstr (String.mk [p.2]))
  | _ => []

/-- Assignment `o[k] = v` on a JS object under construction: overwrite in
place when the key exists, else append (insertion order preserved). The
value is `Option JVal` because the source occasionally stores a value that
may be `undefined` at runtime. -/
def setKeyO : List (String × Option JVal) → String → Option JVal → List (String × Option JVal)
  | [], k, v => [(k, v)]
  | (k1, v1) :: rest, k, v =>
    if k1 == k then (k1, v) :: rest else (k1, v1) :: setKeyO rest k v

/-- Assignment `o[k] = v` for string-valued records. -/
def setKeyS : List (String × String) → String → String → List (String × String)
  | [], k, v => [(k, v)]
  | (k1, v1) :: rest, k, v =>
    if k1 == k then (k1, v) :: rest else (k1, v1) :: setKeyS rest k v

/-- `o.k` where the receiver is known to be a string-typed value or the
access would already have thrown: expect a string, else `TypeError`
(models calling a string method such as `.toLowerCase()`/`.startsWith()`
on a non-string). -/
def jsExpectStr (o : Option JVal) (what : String) : Except String String :=
  match o with
  | some (.jstr s) => .ok s
  | _ => .error ("TypeError: " ++ what ++ " is not a function")

/-- ASCII lower-casing (kernel-evaluable form of `toLowerCase`). -/
def jsToLower (s : String) : String :=
  String.mk (s.data.map Char.toLower)

/-- Substring test on character lists. -/
def containsSub (needle : List Char) : List Char → Bool
  | [] => needle.isEmpty
  | c :: rest => needle.isPrefixOf (c :: rest) || containsSub needle rest

/-- `s.includes(sub)`. -/
def strContains (s sub : String) : Bool :=
  containsSub sub.data s.data

/-- Split a character list at every occurrence of a separator character
(JS `String.prototype.split` with a single-character separator). -/
def splitOnChar (sep : Char) : List Char → List (List Char)
  | [] => [[]]
  | c :: rest =>
    if c == sep then [] :: splitOnChar sep rest
    else
      match splitOnChar sep rest with
      | [] => [[c]]
      | t :: ts => (c :: t) :: ts

/-- `s.split('\n')`. -/
def splitLines (s : String) : List String :=
  (splitOnChar '\n' s.data).map fun cs => String.mk cs

/-- `s.split(':')`. -/
def splitOnColon (s : String) : List String :=
  (splitOnChar ':' s.data).map fun cs => String.mk cs

/-- `line.match(/^\s+at\s+/)`: leading whitespace, `at`, whitespace. -/
def matchLeadingAt (line : String) : Bool :=
  let ws := line.data.takeWhile Char.isWhitespace
  match line.data.drop ws.length with
  | 'a' :: 't' :: c :: _ => !ws.isEmpty && c.isWhitespace
  | _ => false

/-- Occurrence of `", line ` followed by a digit. -/
def hasCommaLineDigit : List Char → Bool
  | [] => false
  | c :: rest =>
    (("\", line ".data.isPrefixOf (c :: rest)) &&
      (match (c :: rest).drop 8 with
       | d :: _ => d.isDigit
       | [] => false)) ||
    hasCommaLineDigit rest

/-- `line.match(/File ".*", line \d+/)` as an occurrence test: some
`File "` is eventually followed by `", line ` and a digit. -/
def matchFileLine : List Char → Bool
  | [] => false
  | c :: rest =>
    (("File \"".data.isPrefixOf (c :: rest)) && hasCommaLineDigit ((c :: rest).drop 6)) ||
    matchFileLine rest

/-! ## Parser outputs

The TypeScript `parse` methods are declared to return `Alert`, but they
populate it through unchecked casts of the payload, so at runtime a field
declared `string` carries whatever value the payload held — possibly
`undefined`. `RawAlert` is the runtime shape of a parser result: each
payload-derived field is the raw value (`none` = `undefined`); `severity`
is always computed by the parser itself, so it is a genuine `Severity`. -/

/-- Runtime result of a format parser's `parse`. -/
structure RawAlert where
  source : String
  id : Option JVal
  title : Option JVal
  description : Option JVal
  severity : Severity
  stackTrace : Option JVal
  service : Option JVal
  timestamp : Option JVal
  url : Option JVal
  tags : Option (List (String × Option JVal))
  raw : JVal

/-- A registered format parser: `{name, canParse, parse}`
(`src/types.ts` `Parser` interface). -/
structure Parser where
  name : String
  canParse : JVal → Bool
  parse : JVal → Except String RawAlert

/-! ## Generic fallback parser (src/parsers/generic.ts) -/

/-- Field-name list of `GenericParser.extractId`. -/
def idFields : List String :=
  ["id", "incident_id", "alert_id", "event_id", "uuid", "key"]

/-- Field-name list of `GenericParser.extractTitle`. -/
def titleFields : List String :=
  ["title", "summary", "subject", "name", "message", "alert"]

/-- Field-name list of `GenericParser.extractDescription`. -/
def descFields : List String :=
  ["description", "message", "body", "text", "content", "details"]

/-- Field-name list of `GenericParser.extractSeverity`. -/
def sevFields : List String :=
  ["severity", "priority", "urgency", "level", "status"]

/-- Direct field names of `GenericParser.extractStackTrace`. -/
def stackFields : List String :=
  ["stack_trace", "stackTrace", "stack", "backtrace", "traceback"]

/-- Field-name list of `GenericParser.extractService`. -/
def serviceFields : List String :=
  ["service", "service_name", "serviceName", "app", "application", "component"]

/-- Field-name list of `GenericParser.extractTimestamp`. -/
def timeFields : List String :=
  ["timestamp", "created_at", "createdAt", "time", "date", "occurred_at"]

/-- Field-name list of `GenericParser.extractUrl`. -/
def urlFields : List String :=
  ["url", "link", "href", "html_url", "web_url", "incident_url"]

/-- First field of the list that is present and not `null`
(`p[field] !== undefined && p[field] !== null`), returning its raw value. -/
def firstDefined (p : JVal) : List String → Option JVal
  | [] => none
  | f :: rest =>
    match getField p f with
    | some .jnull => firstDefined p rest
    | some v => some v
    | none => firstDefined p rest

/-- First field of the list holding a truthy string
(`typeof p[field] === 'string' && p[field]`). -/
def firstTruthyString (p : JVal) : List String → Option String
  | [] => none
  | f :: rest =>
    match getField p f with
    | some (.jstr s) => if s == "" then firstTruthyString p rest else some s
    | _ => firstTruthyString p rest

/-- First field of the list holding any string
(`typeof p[field] === 'string'`). -/
def firstStringField (p : JVal) : List String → Option String
  | [] => none
  | f :: rest =>
    match getField p f with
    | some (.jstr s) => some s
    | _ => firstStringField p rest

/-- `GenericParser.extractId`: first present non-null id field rendered with
`String(...)`, else `String(Date.now())`. -/
def extractId (env : JsEnv) (p : JVal) : String :=
  match firstDefined p idFields with
  | some v => jsString v
  | none => toString env.nowMs

/-- `GenericParser.extractTitle`: first truthy string title field, else the
fixed fallback literal. -/
def extractTitle (p : JVal) : String :=
  (firstTruthyString p titleFields).getD "Unknown Alert"

/-- The loop of `GenericParser.extractDescription`: a truthy string field
wins; a non-null object field with a string `message` or `text` wins;
otherwise continue with the next field name. -/
def extractDescriptionLoop (p : JVal) : List String → Option String
  | [] => none
  | f :: rest =>
    match getField p f with
    | some (.jstr s) => if s == "" then extractDescriptionLoop p rest else some s
    | some v =>
      if isObjNonNull v then
        match getField v "message" with
        | some (.jstr m) => some m
        | _ =>
          match getField v "text" with
          | some (.jstr t) => some t
          | _ => extractDescriptionLoop p rest
      else extractDescriptionLoop p rest
    | none => extractDescriptionLoop p rest

/-- `GenericParser.extractDescription`, falling back to the title. -/
def extractDescription (p : JVal) : String :=
  (extractDescriptionLoop p descFields).getD (extractTitle p)

/-- Keyword set mapped to `critical` by `GenericParser.extractSeverity`. -/
def criticalKeywords : List String :=
  ["critical", "high", "p1", "emergency", "fatal", "error"]

/-- Keyword set mapped to `warning`. -/
def warningKeywords : List String :=
  ["warning", "medium", "p2", "warn"]

/-- Keyword set mapped to `info`. -/
def infoKeywords : List String :=
  ["info", "low", "p3", "p4", "p5", "debug"]

/-- The loop of `GenericParser.extractSeverity`: classify the first
string-typed severity field whose lower-casing hits one of the keyword
sets; default `warning`. -/
def extractSeverityLoop (p : JVal) : List String → Severity
  | [] => .warning
  | f :: rest =>
    match getField p f with
    | some (.jstr s) =>
      let sev := jsToLower s
      if criticalKeywords.contains sev then .critical
      else if warningKeywords.contains sev then .warning
      else if infoKeywords.contains sev then .info
      else extractSeverityLoop p rest
    | _ => extractSeverityLoop p rest

/-- `GenericParser.extractSeverity`. -/
def extractSeverity (p : JVal) : Severity :=
  extractSeverityLoop p sevFields

/-- A successful `getField` yields a structurally smaller value (for the
termination of the nested-object recursion in `extractStackTrace`). -/
theorem sizeOf_getField {p v : JVal} {k : String} (h : getField p k = some v) :
    sizeOf v < sizeOf p := by
  cases p <;> simp only [getField] at h
  case jobj fields =>
    rw [Option.map_eq_some'] at h
    obtain ⟨f, hf, hv⟩ := h
    have hmem := List.mem_of_find?_eq_some hf
    have h1 := List.sizeOf_lt_of_mem hmem
    obtain ⟨k1, v1⟩ := f
    simp only [Prod.mk.sizeOf_spec] at h1
    cases hv
    simp only [JVal.jobj.sizeOf_spec]
    omega
  all_goals exact Option.noConfusion h

/-- The trailing heuristic of `GenericParser.extractStackTrace`: scan the
extracted description for stack-like lines; require at least two. -/
def stackDescScan (p : JVal) : Option String :=
  let desc := extractDescription p
  if strContains desc " at " && (strContains desc ":" || strContains desc "(") then
    let stackLines := (splitLines desc).filter fun line =>
      strContains line " at " || matchLeadingAt line || matchFileLine line.data
    if 2 ≤ stackLines.length then some (String.intercalate "\n" stackLines)
    else none
  else none

/-- Result of a nested recursive stack-trace extraction, subjected to the
source's `if (nested) return nested` truthiness check (an empty string is
discarded). -/
def truthyStr : Option String → Option String
  | some "" => none
  | o => o

/-- `GenericParser.extractStackTrace`: direct string field, else recursion
into the nested `details`/`data`/`error`/`exception` objects (each result
kept only when truthy), else the description heuristic. -/
def extractStackTrace (p : JVal) : Option String :=
  match firstStringField p stackFields with
  | some s => some s
  | none =>
    (truthyStr
      (match h1 : getField p "details" with
       | some v => if isObjNonNull v then extractStackTrace v else none
       | none => none)) <|>
    (truthyStr
      (match h2 : getField p "data" with
       | some v => if isObjNonNull v then extractStackTrace v else none
       | none => none)) <|>
    (truthyStr
      (match h3 : getField p "error" with
       | some v => if isObjNonNull v then extractStackTrace v else none
       | none => none)) <|>
    (truthyStr
      (match h4 : getField p "exception" with
       | some v => if isObjNonNull v then extractStackTrace v else none
       | none => none)) <|>
    stackDescScan p
termination_by sizeOf p
decreasing_by
  · exact sizeOf_getField h1
  · exact sizeOf_getField h2
  · exact sizeOf_getField h3
  · exact sizeOf_getField h4

/-- `GenericParser.extractService`: truthy string field, else one level of
nested `service.name`. -/
def extractService (p : JVal) : Option String :=
  match firstTruthyString p serviceFields with
  | some s => some s
  | none =>
    match getField p "service" with
    | some v =>
      if isObjNonNull v then
        match getField v "name" with
        | some (.jstr n) => some n
        | _ => none
      else none
    | none => none

/-- The loop of `GenericParser.extractTimestamp`: a string field is
re-parsed as a date (ISO-rendered when valid, returned verbatim when not);
a numeric field is treated as unix seconds unless it exceeds
`9999999999`, and formatting an out-of-range value throws `RangeError`;
otherwise current time. -/
def extractTimestampLoop (env : JsEnv) (p : JVal) : List String → Except String String
  | [] => .ok env.nowIso
  | f :: rest =>
    match getField p f with
    | some (.jstr s) =>
      match env.parseDate s with
      | some ms =>
        match env.msToIso ms with
        | some iso => .ok iso
        | none => .error "RangeError: Invalid time value"
      | none => .ok s
    | some (.jnum n) =>
      match env.msToIso (if 9999999999 < n then n else n * 1000) with
      | some iso => .ok iso
      | none => .error "RangeError: Invalid time value"
    | _ => extractTimestampLoop env p rest

/-- `GenericParser.extractTimestamp`. -/
def extractTimestamp (env : JsEnv) (p : JVal) : Except String String :=
  extractTimestampLoop env p timeFields

/-- `GenericParser.extractUrl`. -/
def extractUrl (p : JVal) : Option String :=
  firstTruthyString p urlFields

/-- `GenericParser.extractTags`: a `tags` array of `key:value` strings, or a
`tags` object, merged with a non-array `labels` object; string and numeric
values are stringified, everything else skipped. -/
def extractTags (p : JVal) : List (String × String) :=
  let fromEntries := fun (acc : List (String × String)) (fields : List (String × JVal)) =>
    fields.foldl (fun acc f =>
      match f.2 with
      | .jstr s => setKeyS acc f.1 s
      | .jnum n => setKeyS acc f.1 (toString n)
      | _ => acc) acc
  let t1 : List (String × String) :=
    match getField p "tags" with
    | some (.jarr xs) =>
      xs.foldl (fun acc tag =>
        match tag with
        | .jstr s =>
          if strContains s ":" then
            match splitOnColon s with
            | key :: value => setKeyS acc key (String.intercalate ":" value)
            | [] => acc
          else setKeyS acc s "true"
        | _ => acc) []
    | some (.jobj fields) => fromEntries [] fields
    | _ => []
  match getField p "labels" with
  | some (.jobj fields) => fromEntries t1 fields
  | _ => t1

/-- `GenericParser.canParse`: accepts everything. -/
def genericCanParse (_payload : JVal) : Bool :=
  true

/-- `GenericParser.parse`: non-object payloads (including `null`) get the
fixed placeholder Alert; objects and arrays go through the layered
field-extraction chain. Only the timestamp path can throw (`RangeError`
from an out-of-range numeric date). -/
def genericParse (env : JsEnv) (payload : JVal) : Except String RawAlert :=
  if isObjNonNull payload then do
    let ts ← extractTimestamp env payload
    .ok ⟨"generic",
      some (.jstr (extractId env payload)),
      some (.jstr (extractTitle payload)),
      some (.jstr (extractDescription payload)),
      extractSeverity payload,
      (extractStackTrace payload).map .jstr,
      (extractService payload).map .jstr,
      some (.jstr ts),
      (extractUrl payload).map .jstr,
      some ((extractTags payload).map fun f => (f.1, some (JVal.jstr f.2))),
      payload⟩
  else
    .ok ⟨"generic",
      some (.jstr (toString env.nowMs)),
      some (.jstr "Unknown Alert"),
      some (.jstr (jsString payload)),
      .warning,
      none, none,
      some (.jstr env.nowIso),
      none, none,
      payload⟩

/-- C10: on every non-object payload (null, boolean, number or string) the
generic parser never throws and returns the placeholder Alert: source
`generic`, title `Unknown Alert`, severity `warning`, description the
string rendering of the payload, id and timestamp derived from the current
time, and `raw` the original payload. -/
theorem genericParse_nonObject (env : JsEnv) (payload : JVal)
    (h : payload = .jnull ∨ (∃ b, payload = .jbool b) ∨
         (∃ n, payload = .jnum n) ∨ (∃ s, payload = .jstr s)) :
    genericParse env payload =
      .ok ⟨"generic",
        some (.jstr (toString env.nowMs)),
        some (.jstr "Unknown Alert"),
        some (.jstr (jsString payload)),
        .warning,
        none, none,
        some (.jstr env.nowIso),
        none, none,
        payload⟩ := by
  have hobj : isObjNonNull payload = false := by
    rcases h with rfl | ⟨b, rfl⟩ | ⟨n, rfl⟩ | ⟨s, rfl⟩ <;> rfl
  simp [genericParse, hobj]

/-- Witness for C10: the generic parser applied to the payload `null` under
a concrete clock. -/
theorem genericParse_nonObject_witness :
    genericParse
        ⟨7, "2023-11-14T22:13:20.000Z", fun _ => none, fun _ => none,
          fun _ => "2023-11-14T22:13:20.000Z", fun _ => none⟩
        .jnull =
      .ok ⟨"generic",
        some (.jstr "7"),
        some (.jstr "Unknown Alert"),
        some (.jstr "null"),
        .warning,
        none, none,
        some (.jstr "2023-11-14T22:13:20.000Z"),
        none, none,
        .jnull⟩ :=
  Eq.trans (genericParse_nonObject
    ⟨7, "2023-11-14T22:13:20.000Z", fun _ => none, fun _ => none,
      fun _ => "2023-11-14T22:13:20.000Z", fun _ => none⟩
    .jnull (Or.inl rfl)) rfl

/-! ## PagerDuty parser (src/parsers/pagerduty.ts) -/

/-- `PagerDutyParser.canParse`: an object with an `event` property that is a
non-null object carrying a `data` property of object type — note `data` is
*not* tested against `null` (`typeof null === 'object'`). -/
def pagerdutyCanParse (payload : JVal) : Bool :=
  isObjNonNull payload &&
    hasKey payload "event" &&
    (match getField payload "event" with
     | some ev =>
       isObjNonNull ev &&
         hasKey ev "data" &&
         (match getField ev "data" with
          | some d => isObjType d
          | none => false)
     | none => false)

/-- The `extractTags` helper of `PagerDutyParser`: incident number
(stringified), service id (`data.service?.id || ''`), then string- or
number-valued custom fields. -/
def pagerdutyExtractTags (data : Option JVal) : Except String (List (String × Option JVal)) := do
  let numberV ← jsGet data "number"
  let serviceV ← jsGet data "service"
  let t0 : List (String × Option JVal) :=
    setKeyO (setKeyO [] "incident_number" (some (.jstr (jsStringU numberV))))
      "service_id" (jsOr (jsGetOpt serviceV "id") (some (.jstr "")))
  let customV ← jsGet data "custom_fields"
  if truthyO customV then
    let t1 := (jsEntries (customV.getD .jnull)).foldl (fun acc f =>
      match f.2 with
      | .jstr s => setKeyO acc f.1 (some (.jstr s))
      | .jnum n => setKeyO acc f.1 (some (.jstr (toString n)))
      | _ => acc) t0
    .ok t1
  else .ok t0

/-- `PagerDutyParser.parse`: destructure `event` and `data`, read the error
details through `data.body?.details`, prefer the detail error message over
the title as description when it differs, map urgency `high` to critical,
and collect the remaining fields raw. The `data.body` read throws a
`TypeError` when `data` is `null` or `undefined`. -/
def pagerdutyParse (payload : JVal) : Except String RawAlert := do
  let event ← jsGet (some payload) "event"
  let data ← jsGet event "data"
  let body ← jsGet data "body"
  let details := jsGetOpt body "details"
  let errorMessage := jsGetOpt details "error_message"
  let stackTrace := jsGetOpt details "stack_trace"
  let dataTitle ← jsGet data "title"
  let description :=
    if truthyO errorMessage && !(beqOV errorMessage dataTitle) then errorMessage
    else dataTitle
  let urgencyV ← jsGet data "urgency"
  let serviceV ← jsGet data "service"
  let idV ← jsGet data "id"
  let createdV ← jsGet data "created_at"
  let urlV ← jsGet data "html_url"
  let tags ← pagerdutyExtractTags data
  .ok ⟨"pagerduty",
    idV,
    dataTitle,
    description,
    (if isStrV urgencyV "high" then .critical else .warning),
    (match stackTrace with
     | some (.jstr s) => some (.jstr s)
     | _ => none),
    jsGetOpt serviceV "name",
    createdV,
    urlV,
    some tags,
    payload⟩

/-- C1 (code bug): `PagerDutyParser.canParse` accepts the payload
`{"event": {"data": null}}` (because `typeof null === 'object'`), yet
`parse` then throws a `TypeError` reading `data.body` instead of producing
a complete defaulted Alert — contradicting the spec invariant that `parse`
is total (and defaults missing nested fields) on every accepted payload. -/
theorem pagerduty_accepts_but_parse_throws :
    pagerdutyCanParse (.jobj [("event", .jobj [("data", .jnull)])]) = true ∧
    pagerdutyParse (.jobj [("event", .jobj [("data", .jnull)])]) =
      .error "TypeError: Cannot read properties of null (reading body)" :=
  ⟨rfl, rfl⟩

/-! ## Datadog parser (src/parsers/datadog.ts) -/

/-- `DatadogParser.canParse`: an object with a string `title` and one of
`date`, `date_happened`, `alert_type`. -/
def datadogCanParse (payload : JVal) : Bool :=
  isObjNonNull payload &&
    hasKey payload "title" &&
    (match getField payload "title" with
     | some (.jstr _) => true
     | _ => false) &&
    (hasKey payload "date" || hasKey payload "date_happened" || hasKey payload "alert_type")

/-- Datadog inline stack scan: lines containing ` at ` (or matching
`/^\s+at\s+/`) when the text has both ` at ` and `:`, requiring at least
one such line. -/
def datadogInlineScan (text : String) : Option String :=
  if strContains text " at " && strContains text ":" then
    let stackLines := (splitLines text).filter fun line =>
      strContains line " at " || matchLeadingAt line
    if 0 < stackLines.length then some (String.intercalate "\n" stackLines)
    else none
  else none

/-- `DatadogParser.extractStackTrace` on a string: first fenced code block
(backticks stripped, trimmed) when it looks like a trace, else the inline
scan. -/
def datadogStackFromText (text : String) : Option String :=
  match fencedBlockMatch text with
  | some m =>
    let stackContent := jsTrim (String.mk (stripTicks m.data))
    if strContains stackContent " at " || strContains stackContent "Traceback" then
      some stackContent
    else datadogInlineScan text
  | none => datadogInlineScan text

/-- `tags.find(t => t.startsWith(key + ':'))`: first matching tag string;
calling `.startsWith` on a non-string element throws. -/
def datadogFindTag (key : String) : List JVal → Except String (Option String)
  | [] => .ok none
  | x :: rest => do
    let s ← jsExpectStr (some x) "t.startsWith"
    if (key ++ ":").data.isPrefixOf s.data then .ok (some s)
    else datadogFindTag key rest

/-- `DatadogParser.extractTagValue`: `undefined` when `tags` is falsy, a
`TypeError` when it is truthy but not an array, else the value after the
first `:` of the first `key:`-prefixed tag. -/
def datadogExtractTagValue (tags : Option JVal) (key : String) :
    Except String (Option JVal) :=
  if !truthyO tags then .ok none
  else
    match tags with
    | some (.jarr xs) => do
      match ← datadogFindTag key xs with
      | some s => .ok (some (.jstr ((splitOnColon s).getD 1 "")))
      | none => .ok none
    | _ => .error "TypeError: tags.find is not a function"

/-- The loop of `DatadogParser.parseTags`: split each tag string on `:`,
value defaulting to `true` when empty; a non-string element throws. -/
def datadogParseTagsLoop : List JVal → List (String × Option JVal) →
    Except String (List (String × Option JVal))
  | [], acc => .ok acc
  | x :: rest, acc => do
    let s ← jsExpectStr (some x) "tag.split"
    match splitOnColon s with
    | key :: valueParts =>
      if key == "" then datadogParseTagsLoop rest acc
      else
        datadogParseTagsLoop rest (setKeyO acc key
          (some (.jstr
            (if String.intercalate ":" valueParts == "" then "true"
             else String.intercalate ":" valueParts))))
    | [] => datadogParseTagsLoop rest acc

/-- `DatadogParser.parseTags`: `{}` when `tags` is falsy, else the tag loop
(a truthy non-array throws when iterated). -/
def datadogParseTags (tags : Option JVal) :
    Except String (List (String × Option JVal)) :=
  if !truthyO tags then .ok []
  else do
    let xs ← jsIter (tags.getD .jnull)
    datadogParseTagsLoop xs []

/-- `DatadogParser.mapSeverity`. -/
def datadogMapSeverity (alertType priority : Option JVal) : Severity :=
  if isStrV alertType "error" then .critical
  else if isStrV alertType "warning" then .warning
  else if isStrV priority "low" then .info
  else .warning

/-- `DatadogParser.parse`: id chain with timestamp fallback, unix-seconds
date conversion (`RangeError` on an invalid value), stack trace from
`text || ''` (a truthy non-string `text` throws when `.match` is called),
service from the `service:` tag, severity from alert type and priority. -/
def datadogParse (env : JsEnv) (payload : JVal) : Except String RawAlert := do
  let idV ← jsGet (some payload) "id"
  let eventIdV ← jsGet (some payload) "event_id"
  let id := jsOr (jsOr idV eventIdV) (some (.jstr (toString env.nowMs)))
  let dateV ← jsGet (some payload) "date"
  let dateHappenedV ← jsGet (some payload) "date_happened"
  let timestampV := jsOr dateV dateHappenedV
  let isoTimestamp ←
    if truthyO timestampV then
      match jsToNumber (timestampV.getD .jnull) with
      | some n =>
        match env.msToIso (n * 1000) with
        | some iso => pure iso
        | none => Except.error "RangeError: Invalid time value"
      | none => Except.error "RangeError: Invalid time value"
    else pure env.nowIso
  let textV ← jsGet (some payload) "text"
  let text ← jsExpectStr (if truthyO textV then textV else some (.jstr "")) "text.match"
  let stackTrace := datadogStackFromText text
  let tagsV ← jsGet (some payload) "tags"
  let service ← datadogExtractTagValue tagsV "service"
  let alertTypeV ← jsGet (some payload) "alert_type"
  let priorityV ← jsGet (some payload) "priority"
  let severity := datadogMapSeverity alertTypeV priorityV
  let tags ← datadogParseTags tagsV
  let titleV ← jsGet (some payload) "title"
  let eventMsgV ← jsGet (some payload) "event_msg"
  let urlV ← jsGet (some payload) "url"
  let snapshotV ← jsGet (some payload) "snapshot_url"
  .ok ⟨"datadog",
    id,
    titleV,
    jsOr (jsOr textV eventMsgV) titleV,
    severity,
    stackTrace.map .jstr,
    service,
    some (.jstr isoTimestamp),
    jsOr urlV snapshotV,
    some tags,
    payload⟩

/-! ## CloudWatch parser (src/parsers/cloudwatch.ts) -/

/-- `CloudWatchParser.canParse`: either an SNS envelope whose string
`Message` JSON-parses to a value with `AlarmName` and `NewStateValue`
(the `try`/`catch` turns a parse failure — or the `in` operator throwing
on a primitive — into `false`), or a direct alarm object with those keys. -/
def cloudwatchCanParse (env : JsEnv) (payload : JVal) : Bool :=
  isObjNonNull payload &&
    (if hasKey payload "Type" && hasKey payload "Message" &&
        (match getField payload "Message" with
         | some (.jstr _) => true
         | _ => false) then
      match getField payload "Message" with
      | some (.jstr m) =>
        match env.jsonParse m with
        | some parsed =>
          (match parsed with
           | .jobj _ => hasKey parsed "AlarmName" && hasKey parsed "NewStateValue"
           | .jarr _ => hasKey parsed "AlarmName" && hasKey parsed "NewStateValue"
           | _ => false)
        | none => false
      | _ => false
    else hasKey payload "AlarmName" && hasKey payload "NewStateValue")

/-- Dimension names `CloudWatchParser.extractService` probes, in order. -/
def cloudwatchServiceKeys : List String :=
  ["ServiceName", "FunctionName", "TableName", "QueueName", "ClusterName",
   "DBInstanceIdentifier", "LoadBalancerName", "TargetGroup",
   "AutoScalingGroupName"]

/-- `dimensions.find(d => d.name === key)` (reading `name` of a null
element throws). -/
def cloudwatchFindDim (key : String) : List JVal → Except String (Option JVal)
  | [] => .ok none
  | d :: rest => do
    let n ← jsGet (some d) "name"
    if isStrV n key then .ok (some d)
    else cloudwatchFindDim key rest

/-- The key loop of `CloudWatchParser.extractService`: the `value` of the
first dimension matching a service key (returned even when `undefined`). -/
def cloudwatchServiceLoop (xs : List JVal) : List String → Except String (Option JVal)
  | [] => .ok none
  | key :: restKeys => do
    match ← cloudwatchFindDim key xs with
    | some dim => jsGet (some dim) "value"
    | none => cloudwatchServiceLoop xs restKeys

/-- `CloudWatchParser.extractService`: `undefined` for falsy dimensions; a
truthy non-array throws `.find`. -/
def cloudwatchExtractService (dims : Option JVal) : Except String (Option JVal) :=
  if !truthyO dims then .ok none
  else
    match dims with
    | some (.jarr xs) => cloudwatchServiceLoop xs cloudwatchServiceKeys
    | _ => .error "TypeError: dimensions.find is not a function"

/-- `CloudWatchParser.mapSeverity`. -/
def cloudwatchMapSeverity (state : Option JVal) : Severity :=
  if isStrV state "ALARM" then .critical
  else if isStrV state "INSUFFICIENT_DATA" then .warning
  else .info

/-- The dimension tag loop of `CloudWatchParser.parse`:
`tags['dimension:' + dim.name] = dim.value`. -/
def cloudwatchDimTags (acc : List (String × Option JVal)) :
    List JVal → Except String (List (String × Option JVal))
  | [] => .ok acc
  | d :: rest => do
    let n ← jsGet (some d) "name"
    let v ← jsGet (some d) "value"
    cloudwatchDimTags (setKeyO acc ("dimension:" ++ jsStringU n) v) rest

/-- `CloudWatchParser.parse`: unwrap the SNS envelope when `Type` and
`Message` are present (JSON-parsing the message, `SyntaxError` on
failure), then read `alarm.Trigger.Dimensions` — which throws a
`TypeError` whenever `Trigger` is missing — derive service, severity,
description, timestamp and the metric/dimension tags. -/
def cloudwatchParse (env : JsEnv) (payload : JVal) : Except String RawAlert := do
  let hasType ← jsIn payload "Type"
  let isSns := hasType && hasKey payload "Message"
  let alarmAndTs ←
    if isSns then do
      let msgV ← jsGet (some payload) "Message"
      match env.jsonParse (jsStringU msgV) with
      | some a => do
        let tsV ← jsGet (some payload) "Timestamp"
        pure (some a, tsV)
      | none => Except.error "SyntaxError: Unexpected token in JSON"
    else pure (some payload, none)
  let alarm := alarmAndTs.1
  let snsTimestamp := alarmAndTs.2
  let trigger ← jsGet alarm "Trigger"
  let dims ← jsGet trigger "Dimensions"
  let service ← cloudwatchExtractService dims
  let alarmV := alarm.getD .jnull
  let severity := cloudwatchMapSeverity (getField alarmV "NewStateValue")
  let description := jsOr (getField alarmV "AlarmDescription")
    (getField alarmV "NewStateReason")
  let timestamp := jsOr (jsOr (getField alarmV "StateChangeTime") snsTimestamp)
    (some (.jstr env.nowIso))
  let metricV ← jsGet trigger "MetricName"
  let namespaceV ← jsGet trigger "Namespace"
  let t0 := setKeyO (setKeyO [] "metric" metricV) "namespace" namespaceV
  let t1 :=
    if truthy (getField alarmV "Region" |>.getD .jnull) then
      setKeyO t0 "region" (getField alarmV "Region")
    else t0
  let t2 :=
    if truthy (getField alarmV "AWSAccountId" |>.getD .jnull) then
      setKeyO t1 "account" (getField alarmV "AWSAccountId")
    else t1
  let tags ←
    if truthyO dims then do
      let xs ← jsIter (dims.getD .jnull)
      cloudwatchDimTags t2 xs
    else pure t2
  .ok ⟨"cloudwatch",
    getField alarmV "AlarmName",
    getField alarmV "AlarmName",
    description,
    severity,
    none,
    service,
    timestamp,
    none,
    some tags,
    payload⟩

/-! ## Sentry parser (src/parsers/sentry.ts, from the repository sources) -/

/-- `SentryParser.canParse`: an object whose `data` is a non-null object
containing `event` or `issue`. -/
def sentryCanParse (payload : JVal) : Bool :=
  isObjNonNull payload &&
    hasKey payload "data" &&
    (match getField payload "data" with
     | some d => isObjNonNull d && (hasKey d "event" || hasKey d "issue")
     | none => false)

/-- `Array.prototype.join(sep)` coercion: `null` elements render empty. -/
def joinVals (sep : String) (parts : List JVal) : String :=
  String.intercalate sep (parts.map fun v =>
    match v with
    | .jnull => ""
    | v => jsString v)

/-- The exception loop of `SentryParser.buildDescription`: push
`type: value` for each exception entry with truthy type and value. -/
def sentryDescParts (acc : List JVal) : List JVal → Except String (List JVal)
  | [] => .ok acc
  | exc :: rest => do
    let t ← jsGet (some exc) "type"
    let v ← jsGet (some exc) "value"
    sentryDescParts
      (if truthyO t && truthyO v then
        acc ++ [.jstr (jsStringU t ++ ": " ++ jsStringU v)]
      else acc) rest

/-- `SentryParser.buildDescription`: event message, exception summaries,
issue-title fallback, joined by blank lines, with a fixed literal when
everything is empty. -/
def sentryBuildDescription (event issue : Option JVal) : Except String String := do
  let p0 :=
    if truthyO (jsGetOpt event "message") then [(jsGetOpt event "message").getD .jnull]
    else []
  let vals := jsGetOpt (jsGetOpt event "exception") "values"
  let p1 ←
    if truthyO vals then do
      let xs ← jsIter (vals.getD .jnull)
      sentryDescParts p0 xs
    else pure p0
  let p2 :=
    if p1.isEmpty && truthyO (jsGetOpt issue "title") then
      p1 ++ [(jsGetOpt issue "title").getD .jnull]
    else p1
  let joined := joinVals "\n\n" p2
  .ok (if joined == "" then "No description available" else joined)

/-- The frame loop of `SentryParser.extractStackTrace`:
`    at fn (filename:lineno)` per frame, falsy location parts filtered. -/
def sentryFrameLines (acc : List String) : List JVal → Except String (List String)
  | [] => .ok acc
  | frame :: rest => do
    let filename ← jsGet (some frame) "filename"
    let lineno ← jsGet (some frame) "lineno"
    let location := String.intercalate ":"
      (([filename, lineno].filter truthyO).map jsStringU)
    let fnV ← jsGet (some frame) "function"
    let fn := jsOr fnV (some (.jstr "<anonymous>"))
    sentryFrameLines (acc ++ ["    at " ++ jsStringU fn ++ " (" ++ location ++ ")"]) rest

/-- The exception loop of `SentryParser.extractStackTrace`: a `type: value`
header per exception, then up to 20 frames in reversed order. -/
def sentryStackLines (acc : List String) : List JVal → Except String (List String)
  | [] => .ok acc
  | exc :: rest => do
    let t ← jsGet (some exc) "type"
    let v ← jsGet (some exc) "value"
    let acc1 :=
      if truthyO t && truthyO v then acc ++ [jsStringU t ++ ": " ++ jsStringU v]
      else acc
    let stacktraceV ← jsGet (some exc) "stacktrace"
    let frames := jsGetOpt stacktraceV "frames"
    let acc2 ←
      if truthyO frames then do
        let xs ← jsIter (frames.getD .jnull)
        sentryFrameLines acc1 (xs.reverse.take 20)
      else pure acc1
    sentryStackLines acc2 rest

/-- `SentryParser.extractStackTrace`: `undefined` without exception values,
else the joined header/frame lines (or `undefined` when none). -/
def sentryExtractStackTrace (event : Option JVal) : Except String (Option String) := do
  let vals := jsGetOpt (jsGetOpt event "exception") "values"
  if !truthyO vals then .ok none
  else do
    let xs ← jsIter (vals.getD .jnull)
    let lines ← sentryStackLines [] xs
    if 0 < lines.length then .ok (some (String.intercalate "\n" lines))
    else .ok none

/-- `SentryParser.mapSeverity`. -/
def sentryMapSeverity (level : Option JVal) : Severity :=
  if isStrV level "fatal" || isStrV level "error" then .critical
  else if isStrV level "warning" then .warning
  else .info

/-- The tag loop of `SentryParser.extractTags`: `tags[tag.key] = tag.value`. -/
def sentryTagLoop (acc : List (String × Option JVal)) :
    List JVal → Except String (List (String × Option JVal))
  | [] => .ok acc
  | tag :: rest => do
    let k ← jsGet (some tag) "key"
    let v ← jsGet (some tag) "value"
    sentryTagLoop (setKeyO acc (jsStringU k) v) rest

/-- `SentryParser.extractTags`: platform, event tag pairs, issue short id
and project slug. -/
def sentryExtractTags (event issue : Option JVal) :
    Except String (List (String × Option JVal)) := do
  let t0 :=
    if truthyO (jsGetOpt event "platform") then
      setKeyO [] "platform" (jsGetOpt event "platform")
    else []
  let t1 ←
    if truthyO (jsGetOpt event "tags") then do
      let xs ← jsIter ((jsGetOpt event "tags").getD .jnull)
      sentryTagLoop t0 xs
    else pure t0
  let t2 :=
    if truthyO (jsGetOpt issue "shortId") then
      setKeyO t1 "issue_id" (jsGetOpt issue "shortId")
    else t1
  let t3 :=
    if truthyO (jsGetOpt (jsGetOpt issue "project") "slug") then
      setKeyO t2 "project" (jsGetOpt (jsGetOpt issue "project") "slug")
    else t2
  .ok t3

/-- `SentryParser.parse`: id/title fallback chains over event and issue,
built description, level-mapped severity, exception-frame stack trace,
project service, epoch-seconds timestamp (`RangeError` when the value is
not a number or out of range), issue deep link and tags. -/
def sentryParse (env : JsEnv) (payload : JVal) : Except String RawAlert := do
  let data ← jsGet (some payload) "data"
  let event ← jsGet data "event"
  let issue ← jsGet data "issue"
  let id := jsOr (jsOr (jsGetOpt event "event_id") (jsGetOpt issue "id"))
    (some (.jstr (toString env.nowMs)))
  let title := jsOr (jsOr (jsGetOpt event "title") (jsGetOpt issue "title"))
    (some (.jstr "Unknown Sentry Error"))
  let description ← sentryBuildDescription event issue
  let severity := sentryMapSeverity (jsGetOpt event "level")
  let stackTrace ← sentryExtractStackTrace event
  let service := jsOr (jsGetOpt (jsGetOpt issue "project") "name")
    (jsGetOpt (jsGetOpt issue "project") "slug")
  let timestamp ←
    if truthyO (jsGetOpt event "timestamp") then
      match jsToNumber ((jsGetOpt event "timestamp").getD .jnull) with
      | some n =>
        match env.msToIso (n * 1000) with
        | some iso => pure iso
        | none => Except.error "RangeError: Invalid time value"
      | none => Except.error "RangeError: Invalid time value"
    else pure env.nowIso
  let url :=
    if truthyO (jsGetOpt issue "shortId") then
      some (.jstr ("https://sentry.io/issues/" ++ jsStringU (jsGetOpt issue "id") ++ "/"))
    else none
  let tags ← sentryExtractTags event issue
  .ok ⟨"sentry",
    id,
    title,
    some (.jstr description),
    severity,
    stackTrace.map .jstr,
    service,
    some (.jstr timestamp),
    url,
    some tags,
    payload⟩

/-! ## Opsgenie parser (src/parsers/opsgenie.ts) -/

/-- `OpsgenieParser.canParse`: an object whose `alert` is a non-null object
with `alertId` and `message`. -/
def opsgenieCanParse (payload : JVal) : Bool :=
  isObjNonNull payload &&
    hasKey payload "alert" &&
    (match getField payload "alert" with
     | some a => isObjNonNull a && hasKey a "alertId" && hasKey a "message"
     | none => false)

/-- `OpsgenieParser.mapSeverity`. -/
def opsgenieMapSeverity (priority : Option JVal) : Severity :=
  if isStrV priority "P1" || isStrV priority "P2" then .critical
  else if isStrV priority "P3" then .warning
  else .info

/-- The details lookup of `OpsgenieParser.extractStackTrace`: first truthy
value under a known stack key. -/
def opsgenieDetailsLookup (d : JVal) : List String → Option JVal
  | [] => none
  | k :: rest =>
    match getField d k with
    | some v => if truthy v then some v else opsgenieDetailsLookup d rest
    | none => opsgenieDetailsLookup d rest

/-- `OpsgenieParser.extractStackTrace`: details-map lookup, else a scan of
the description for ` at ` lines requiring strictly more than two matches
(`.includes` on a truthy non-string description throws). -/
def opsgenieExtractStackTrace (details description : Option JVal) :
    Except String (Option JVal) := do
  match (if truthyO details then
      opsgenieDetailsLookup (details.getD .jnull)
        ["stackTrace", "stack_trace", "stack", "backtrace"]
    else none) with
  | some v => .ok (some v)
  | none =>
    if truthyO description then do
      let d ← jsExpectStr description "description.includes"
      if strContains d " at " && strContains d ":" then
        let stackLines := (splitLines d).filter fun line =>
          strContains line " at " || matchLeadingAt line
        if 2 < stackLines.length then
          .ok (some (.jstr (String.intercalate "\n" stackLines)))
        else .ok none
      else .ok none
    else .ok none

/-- `tags.find(t => t.toLowerCase().startsWith('service:'))`. -/
def opsgenieFindServiceTag : List JVal → Except String (Option String)
  | [] => .ok none
  | x :: rest => do
    let s ← jsExpectStr (some x) "t.toLowerCase"
    if "service:".data.isPrefixOf (jsToLower s).data then .ok (some s)
    else opsgenieFindServiceTag rest

/-- `OpsgenieParser.extractService`: source name, else integration name,
else the value after the first `:` of a `service:` tag. -/
def opsgenieExtractService (payload : JVal) (tags : Option JVal) :
    Except String (Option JVal) := do
  if truthyO (jsGetOpt (getField payload "source") "name") then
    .ok (jsGetOpt (getField payload "source") "name")
  else if truthyO (getField payload "integrationName") then
    .ok (getField payload "integrationName")
  else if truthyO tags then
    match tags with
    | some (.jarr xs) => do
      match ← opsgenieFindServiceTag xs with
      | some tag => .ok (some (.jstr ((splitOnColon tag).getD 1 "")))
      | none => .ok none
    | _ => .error "TypeError: tags.find is not a function"
  else .ok none

/-- The custom-tag loop of `OpsgenieParser.buildTags`: `key:value` tags are
split, bare tags become `true` (`.includes` on a non-string throws). -/
def opsgenieTagLoop (acc : List (String × Option JVal)) :
    List JVal → Except String (List (String × Option JVal))
  | [] => .ok acc
  | tag :: rest => do
    let s ← jsExpectStr (some tag) "tag.includes"
    if strContains s ":" then
      match splitOnColon s with
      | key :: value =>
        opsgenieTagLoop (setKeyO acc key (some (.jstr (String.intercalate ":" value)))) rest
      | [] => opsgenieTagLoop acc rest
    else opsgenieTagLoop (setKeyO acc s (some (.jstr "true"))) rest

/-- `OpsgenieParser.buildTags`: priority, alert source, tiny id,
integration, action, the custom tags, and the non-stack `detail:` map
entries. -/
def opsgenieBuildTags (alertV payload : JVal) :
    Except String (List (String × Option JVal)) := do
  let t0 :=
    if truthy ((getField alertV "priority").getD .jnull) then
      setKeyO [] "priority" (getField alertV "priority")
    else []
  let t1 :=
    if truthy ((getField alertV "source").getD .jnull) then
      setKeyO t0 "alert_source" (getField alertV "source")
    else t0
  let t2 :=
    if truthy ((getField alertV "tinyId").getD .jnull) then
      setKeyO t1 "tiny_id" (getField alertV "tinyId")
    else t1
  let t3 :=
    if truthy ((getField payload "integrationName").getD .jnull) then
      setKeyO t2 "integration" (getField payload "integrationName")
    else t2
  let t4 :=
    if truthy ((getField payload "action").getD .jnull) then
      setKeyO t3 "action" (getField payload "action")
    else t3
  let t5 ←
    if truthyO (getField alertV "tags") then do
      let xs ← jsIter ((getField alertV "tags").getD .jnull)
      opsgenieTagLoop t4 xs
    else pure t4
  let t6 :=
    if truthyO (getField alertV "details") then
      (jsEntries ((getField alertV "details").getD .jnull)).foldl (fun acc f =>
        if ["stackTrace", "stack_trace", "stack", "backtrace"].contains f.1 then acc
        else setKeyO acc ("detail:" ++ f.1) (some f.2)) t5
    else t5
  .ok t6

/-- `OpsgenieParser.parse`: explicit throw when the `alert` object is
falsy; P-priority severity; `new Date(createdAt)` timestamp (`RangeError`
on an invalid value); tiny-id deep link; details/description stack trace;
source/integration/tag service. -/
def opsgenieParse (env : JsEnv) (payload : JVal) : Except String RawAlert := do
  let alert ← jsGet (some payload) "alert"
  if !truthyO alert then
    Except.error "Opsgenie webhook missing alert object"
  else do
    let alertV := alert.getD .jnull
    let severity := opsgenieMapSeverity (getField alertV "priority")
    let timestamp ←
      if truthyO (getField alertV "createdAt") then
        match jsNewDateMs env ((getField alertV "createdAt").getD .jnull) with
        | some ms =>
          match env.msToIso ms with
          | some iso => pure iso
          | none => Except.error "RangeError: Invalid time value"
        | none => Except.error "RangeError: Invalid time value"
      else pure env.nowIso
    let url :=
      if truthyO (getField alertV "tinyId") then
        some (.jstr ("https://app.opsgenie.com/alert/detail/" ++
          jsStringU (getField alertV "alertId") ++ "/details"))
      else none
    let stackTrace ← opsgenieExtractStackTrace (getField alertV "details")
      (getField alertV "description")
    let service ← opsgenieExtractService payload (getField alertV "tags")
    let tags ← opsgenieBuildTags alertV payload
    .ok ⟨"opsgenie",
      getField alertV "alertId",
      getField alertV "message",
      jsOr (getField alertV "description") (getField alertV "message"),
      severity,
      stackTrace,
      service,
      some (.jstr timestamp),
      url,
      some tags,
      payload⟩

/-! ## Prometheus parser (src/parsers/prometheus.ts, from the repository
sources) -/

/-- `PrometheusParser.canParse`: an object with an `alerts` array and a
`status` of `firing` or `resolved`. -/
def prometheusCanParse (payload : JVal) : Bool :=
  isObjNonNull payload &&
    hasKey payload "alerts" &&
    (match getField payload "alerts" with
     | some (.jarr _) => true
     | _ => false) &&
    hasKey payload "status" &&
    (isStrV (getField payload "status") "firing" ||
      isStrV (getField payload "status") "resolved")

/-- `webhook.alerts.find(a => a.status === 'firing')` (reading `status` of
a null element throws; the search stops at the first match). -/
def prometheusFindFiring : List JVal → Except String (Option JVal)
  | [] => .ok none
  | a :: rest => do
    let st ← jsGet (some a) "status"
    if isStrV st "firing" then .ok (some a)
    else prometheusFindFiring rest

/-- `PrometheusParser.getTitle`: `alert.labels.alertname` (throwing when
`labels` is missing or null), common-label alertname, summary annotation,
fixed fallback. Returns the raw value. -/
def prometheusGetTitle (alert payload : JVal) : Except String JVal := do
  let labels ← jsGet (some alert) "labels"
  let an ← jsGet labels "alertname"
  if truthyO an then .ok (an.getD .jnull)
  else if truthyO (jsGetOpt (getField payload "commonLabels") "alertname") then
    .ok ((jsGetOpt (getField payload "commonLabels") "alertname").getD .jnull)
  else if truthyO (jsGetOpt (getField alert "annotations") "summary") then
    .ok ((jsGetOpt (getField alert "annotations") "summary").getD .jnull)
  else .ok (.jstr "Unknown Prometheus Alert")

/-- `PrometheusParser.getDescription`: description annotation (alert-level,
else common), summary when not already included, message annotation, title
fallback, joined by blank lines. -/
def prometheusGetDescription (alert payload : JVal) : Except String String := do
  let p0 :=
    if truthyO (jsGetOpt (getField alert "annotations") "description") then
      [(jsGetOpt (getField alert "annotations") "description").getD .jnull]
    else if truthyO (jsGetOpt (getField payload "commonAnnotations") "description") then
      [(jsGetOpt (getField payload "commonAnnotations") "description").getD .jnull]
    else []
  let summary := jsGetOpt (getField alert "annotations") "summary"
  let p1 :=
    if truthyO summary then
      if p0.any fun x => JVal.beq x (summary.getD .jnull) then p0
      else p0 ++ [summary.getD .jnull]
    else p0
  let p2 :=
    if truthyO (jsGetOpt (getField alert "annotations") "message") then
      p1 ++ [(jsGetOpt (getField alert "annotations") "message").getD .jnull]
    else p1
  let p3 ←
    if p2.isEmpty then do
      let t ← prometheusGetTitle alert payload
      pure [t]
    else pure p2
  .ok (joinVals "\n\n" p3)

/-- `PrometheusParser.getSeverity`: the lower-cased severity label
(alert-level, else common, else `''`; calling `.toLowerCase` on a
non-string throws) against the fixed keyword sets, with a status-dependent
default. -/
def prometheusGetSeverity (alert payload : JVal) : Except String Severity := do
  let labels ← jsGet (some alert) "labels"
  let s1 ← jsGet labels "severity"
  let sv := jsOr (jsOr s1 (jsGetOpt (getField payload "commonLabels") "severity"))
    (some (.jstr ""))
  let s ← jsExpectStr sv "severityLabel.toLowerCase"
  let lower := jsToLower s
  if lower == "critical" || lower == "page" || lower == "pager" then .ok .critical
  else if lower == "warning" || lower == "warn" then .ok .warning
  else .ok (if isStrV (getField alert "status") "firing" then .warning else .info)

/-- Label names `PrometheusParser.getService` probes, in order. -/
def prometheusServiceLabels : List String :=
  ["service", "job", "app", "application", "deployment", "container", "namespace"]

/-- The label loop of `PrometheusParser.getService`: per label, the alert's
own label value, then the common label value. -/
def prometheusServiceLoop (alert payload : JVal) :
    List String → Except String (Option JVal)
  | [] => .ok none
  | label :: rest => do
    let labels ← jsGet (some alert) "labels"
    let v ← jsGet labels label
    if truthyO v then .ok v
    else if truthyO (jsGetOpt (getField payload "commonLabels") label) then
      .ok (jsGetOpt (getField payload "commonLabels") label)
    else prometheusServiceLoop alert payload rest

/-- `PrometheusParser.buildTags`: spread of the alert labels, `group:`
group labels, status, receiver. -/
def prometheusBuildTags (alert payload : JVal) : List (String × Option JVal) :=
  let t0 : List (String × Option JVal) :=
    match getField alert "labels" with
    | some l => (jsEntries l).map fun f => (f.1, some f.2)
    | none => []
  let t1 :=
    if truthyO (getField payload "groupLabels") then
      (jsEntries ((getField payload "groupLabels").getD .jnull)).foldl
        (fun acc f => setKeyO acc ("group:" ++ f.1) (some f.2)) t0
    else t0
  let t2 := setKeyO t1 "status" (getField alert "status")
  if truthyO (getField payload "receiver") then
    setKeyO t2 "receiver" (getField payload "receiver")
  else t2

/-- `PrometheusParser.generateId`: label pairs sorted by key
(`localeCompare` modelled as lexicographic order), rendered `k=v`, joined
by commas, truncated to 64 characters, prefixed `prometheus-`.
`Object.entries` throws on a missing or null labels object (unreachable in
`parse`, which has already read `labels.alertname`). -/
def prometheusGenerateId (alert : JVal) : Except String String := do
  let labels ← jsGet (some alert) "labels"
  match labels with
  | none => .error "TypeError: Cannot convert undefined or null to object"
  | some .jnull => .error "TypeError: Cannot convert undefined or null to object"
  | some l =>
    let sorted := (jsEntries l).mergeSort fun a b => decide (a.1 ≤ b.1)
    let s := String.intercalate "," (sorted.map fun f => f.1 ++ "=" ++ jsString f.2)
    .ok ("prometheus-" ++ String.mk (s.data.take 64))

/-- `PrometheusParser.parse`: select the first firing alert (else the first
alert), throw the documented error when there is none, then extract title,
description, severity, service, timestamp, url, tags and id. The title
extraction reads `alert.labels.alertname` and therefore throws a
`TypeError` when the selected alert has no `labels` object. -/
def prometheusParse (env : JsEnv) (payload : JVal) : Except String RawAlert := do
  let alertsV ← jsGet (some payload) "alerts"
  let xs ←
    match alertsV with
    | some (.jarr xs) => pure xs
    | _ => Except.error "TypeError: webhook.alerts.find is not a function"
  let found ← prometheusFindFiring xs
  let sel := jsOr found (xs.get? 0)
  if !truthyO sel then
    Except.error "Prometheus webhook contains no alerts"
  else do
    let alert := sel.getD .jnull
    let title ← prometheusGetTitle alert payload
    let description ← prometheusGetDescription alert payload
    let severity ← prometheusGetSeverity alert payload
    let service ← prometheusServiceLoop alert payload prometheusServiceLabels
    let timestamp := jsOr (getField alert "startsAt") (some (.jstr env.nowIso))
    let url := jsOr (getField alert "generatorURL") (getField payload "externalURL")
    let tags := prometheusBuildTags alert payload
    let id ←
      if truthyO (getField alert "fingerprint") then
        pure ((getField alert "fingerprint").getD .jnull)
      else do
        let g ← prometheusGenerateId alert
        pure (.jstr g)
    .ok ⟨"prometheus",
      some id,
      some title,
      some (.jstr description),
      severity,
      none,
      service,
      timestamp,
      url,
      some tags,
      payload⟩

/-- C9 (code bug): among `canParse`-accepted payloads, `parse` does throw
the documented error on an empty `alerts` array, but it is not the only
throw: the accepted payload `{"status": "firing", "alerts": [{}]}` has a
non-empty `alerts` array, yet `parse` throws a `TypeError` reading
`labels.alertname` of the selected alert instead of returning an Alert. -/
theorem prometheus_throws_beyond_empty :
    prometheusCanParse (.jobj [("status", .jstr "firing"), ("alerts", .jarr [])]) = true ∧
    (∀ env : JsEnv,
      prometheusParse env (.jobj [("status", .jstr "firing"), ("alerts", .jarr [])]) =
        .error "Prometheus webhook contains no alerts") ∧
    prometheusCanParse
      (.jobj [("status", .jstr "firing"), ("alerts", .jarr [.jobj []])]) = true ∧
    (∀ env : JsEnv,
      prometheusParse env
          (.jobj [("status", .jstr "firing"), ("alerts", .jarr [.jobj []])]) =
        .error "TypeError: Cannot read properties of undefined (reading alertname)") :=
  ⟨rfl, fun _ => rfl, rfl, fun _ => rfl⟩

/-! ## Parser registry and dispatch (src/parsers/index.ts, from the
repository sources) -/

/-- The PagerDuty parser as a registry entry. -/
def pagerdutyParserDef : Parser :=
  ⟨"pagerduty", pagerdutyCanParse, pagerdutyParse⟩

/-- The Datadog parser as a registry entry. -/
def datadogParserDef (env : JsEnv) : Parser :=
  ⟨"datadog", datadogCanParse, datadogParse env⟩

/-- The CloudWatch parser as a registry entry. -/
def cloudwatchParserDef (env : JsEnv) : Parser :=
  ⟨"cloudwatch", cloudwatchCanParse env, cloudwatchParse env⟩

/-- The Sentry parser as a registry entry. -/
def sentryParserDef (env : JsEnv) : Parser :=
  ⟨"sentry", sentryCanParse, sentryParse env⟩

/-- The Opsgenie parser as a registry entry. -/
def opsgenieParserDef (env : JsEnv) : Parser :=
  ⟨"opsgenie", opsgenieCanParse, opsgenieParse env⟩

/-- The Prometheus parser as a registry entry. -/
def prometheusParserDef (env : JsEnv) : Parser :=
  ⟨"prometheus", prometheusCanParse, prometheusParse env⟩

/-- The generic fallback parser as a registry entry. -/
def genericParserDef (env : JsEnv) : Parser :=
  ⟨"generic", genericCanParse, genericParse env⟩

/-- The ordered registry of all available parsers; the generic fallback is
last. -/
def parsers (env : JsEnv) : List Parser :=
  [pagerdutyParserDef,
   datadogParserDef env,
   cloudwatchParserDef env,
   sentryParserDef env,
   opsgenieParserDef env,
   prometheusParserDef env,
   genericParserDef env]

/-- `getParser`: look a parser up by source name. -/
def getParser (env : JsEnv) (source : String) : Option Parser :=
  (parsers env).find? fun p => p.name == source

/-- `detectParser`: the first registered parser accepting the payload, with
the source's final fallback to the last registry entry (the generic
parser, which accepts everything, so the fallback line is unreachable). -/
def detectParser (env : JsEnv) (payload : JVal) : Parser :=
  match (parsers env).find? fun p => p.canParse payload with
  | some p => p
  | none => ((parsers env).getLast?).getD (genericParserDef env)

/-- `parseAlert`: auto-detect when `source` is `'auto'`; otherwise the
named parser must exist and accept, else normalization fails with the
documented error, never falling back to detection. -/
def parseAlert (env : JsEnv) (payload : JVal) (source : String) :
    Except String RawAlert :=
  if source == "auto" then (detectParser env payload).parse payload
  else
    match getParser env source with
    | none => .error ("Unknown alert source: " ++ source)
    | some specific =>
      if specific.canParse payload then specific.parse payload
      else .error ("Parser " ++ source ++ " cannot parse the given payload")

/-- C8: the catch-all parser accepts every payload, it is the last entry of
the ordered registry, and detection is total: for every payload there is a
first accepting parser in the ordered list and `detectParser` returns
exactly it. -/
theorem detectParser_total (env : JsEnv) (payload : JVal) :
    genericCanParse payload = true ∧
    (parsers env).getLast? = some (genericParserDef env) ∧
    ∃ pr, (parsers env).find? (fun p => p.canParse payload) = some pr ∧
      detectParser env payload = pr := by
  refine ⟨rfl, rfl, ?_⟩
  have hex : ∃ pr ∈ parsers env, (fun p : Parser => p.canParse payload) pr := by
    exact ⟨genericParserDef env, by simp [parsers], by simp [genericParserDef, genericCanParse]⟩
  obtain ⟨pr, hfind⟩ := Option.isSome_iff_exists.mp (List.find?_isSome.mpr hex)
  exact ⟨pr, hfind, by simp [detectParser, hfind]⟩

/-- C7: with an explicit (non-`auto`) source name, `parseAlert` fails when
the name matches no registered parser, fails when the named parser rejects
the payload, and otherwise returns exactly that parser's `parse` result —
never falling back to auto-detection. -/
theorem parseAlert_explicit (env : JsEnv) (payload : JVal) (source : String)
    (h : source ≠ "auto") :
    (getParser env source = none →
      parseAlert env payload source = .error ("Unknown alert source: " ++ source)) ∧
    (∀ pr, getParser env source = some pr →
      (pr.canParse payload = false →
        parseAlert env payload source =
          .error ("Parser " ++ source ++ " cannot parse the given payload")) ∧
      (pr.canParse payload = true →
        parseAlert env payload source = pr.parse payload)) := by
  have hne : (source == "auto") = false := by
    simp [h]
  constructor
  · intro hnone
    simp [parseAlert, hne, hnone]
  · intro pr hpr
    constructor
    · intro hrej
      simp [parseAlert, hne, hpr, hrej]
    · intro hacc
      simp [parseAlert, hne, hpr, hacc]

/-- Witness for C7 at concrete inputs: an unknown name fails, and the
PagerDuty parser, explicitly requested on a payload it rejects (`null`),
fails without falling back to the generic parser. -/
theorem parseAlert_explicit_witness :
    parseAlert
        ⟨0, "1970-01-01T00:00:00.000Z", fun _ => none, fun _ => none,
          fun _ => "1970-01-01T00:00:00.000Z", fun _ => none⟩
        .jnull "nagios" = .error "Unknown alert source: nagios" ∧
    parseAlert
        ⟨0, "1970-01-01T00:00:00.000Z", fun _ => none, fun _ => none,
          fun _ => "1970-01-01T00:00:00.000Z", fun _ => none⟩
        .jnull "pagerduty" = .error "Parser pagerduty cannot parse the given payload" := by
  constructor
  · exact (parseAlert_explicit _ .jnull "nagios" (by decide)).1 rfl
  · exact ((parseAlert_explicit _ .jnull "pagerduty" (by decide)).2
      pagerdutyParserDef rfl).1 rfl

end OncallAgent
